import Mathlib

/-!
# Verification of the `MockHttp` request-response harness

Shallow embedding of the `MockHttp` test harness from `test/util/http.js`
(the mock HTTP / request-response choreography driver of the repository).

The embedding follows the source file closely:

* `MockHttp` is the immutable builder record (`constructor`, lines 184-206);
  fields keep the source's `_`-prefixed names.
* The builder methods `route`, `beforeEachNav`, `mount`, `request`, `respond`,
  `respondWithProblem`, `beforeAnyResponse`, `beforeEachResponse` mirror the
  corresponding methods; methods that `throw new Error(...)` in the source
  return `Except String MockHttp`, with the source's error strings.
* Callbacks are embedded by their observable behaviour: a hook callback is
  `Bool` (whether invoking it throws), a response callback is a `RespEntry`
  (throws, or returns a value with or without a `problem` field), the
  `request()` callback is a `ReqSpec` (which requests it sends, and whether
  it throws afterwards).
* The transport stub returned by `_http()` (lines 533-582) is embedded as an
  explicit state machine: `issueRequest`/`issueAll` model the synchronous part
  of each request (logging, cardinality flags, enqueueing onto
  `this._responsesPromise`), and `runChain`/`chainSegment` model the chained
  promise that settles the queued responses strictly in order, producing an
  event trace (`Event`).
* The execution pipeline of `afterResponses()` (lines 438-529 and 678-717) is
  embedded as `runSeries`, an explicit state-passing function over the global
  state (the module-level `inProgress` flag and `Vue.prototype.$http`).
-/

/-- A request config (the argument to the transport), identified opaquely. -/
abbrev Config := Nat

/-- The `problem` value accepted by `respond()` / `respondWithProblem()`:
either a numeric problem code or an object carrying a `code` field. -/
inductive ProblemArg where
  | num (c : Rat)
  | obj (code : Rat) (payload : Nat)
deriving DecidableEq, Repr

/-- The value returned by a (non-throwing) response callback: either a plain
value (no `problem` field) or a value with a `problem` field (lines 276-277). -/
inductive CallbackResult where
  | plain (v : Nat)
  | problem (p : ProblemArg)
deriving DecidableEq, Repr

/-- A queued response callback's behaviour: returns a result, or throws. -/
inductive RespEntry where
  | returns (r : CallbackResult)
  | throws
deriving DecidableEq, Repr

/-- The body (`data`) of a response descriptor. -/
inductive RespBody where
  | data (v : Nat)
  | problemObj (code : Rat) (payload : Nat)
  | codeMessage (code : Rat) (message : String)
deriving DecidableEq, Repr

/-- A response descriptor `{status, data}` as built by `respond()`'s wrapper. -/
structure Response where
  status : Int
  data : RespBody
deriving DecidableEq, Repr

/-- The wrapper installed around each response callback by `respond()`
(lines 275-285): no `problem` field gives `{status: 200, data: result}`; an
object problem gives `{status: Math.floor(problem.code), data: problem}`; a
numeric problem gives `{status: Math.floor(problem), data: {code: problem,
message: 'There was a problem.'}}`. -/
def mkResponse : CallbackResult → Response
  | .plain v => ⟨200, .data v⟩
  | .problem (.obj code payload) => ⟨code.floor, .problemObj code payload⟩
  | .problem (.num c) => ⟨c.floor, .codeMessage c "There was a problem."⟩

/-- Invoking a queued (wrapped) response callback: the wrapper's result, or
an exception if the underlying callback throws (line 563). -/
def runResponseCallback : RespEntry → Except Unit Response
  | .returns r => .ok (mkResponse r)
  | .throws => .error ()

/-- The observable outcome of the promise the previous series returned:
whether it rejected, and the component it mounted (if any). -/
structure PrevOutcome where
  rejected : Bool
  component : Option Nat
deriving DecidableEq, Repr

/-- Behaviour of a `request()` callback: the requests it sends (in order) and
whether it then throws. -/
structure ReqSpec where
  cfgs : List Config
  throws : Bool
deriving DecidableEq, Repr

/-- The immutable configuration record held by a `MockHttp` instance
(constructor, lines 184-206).  Field names match the source.  `_mount` is the
mount callback's behaviour (whether mounting throws); `_beforeEachNavGuard`,
`_beforeAnyResponse` and `_beforeEachResponse` are the hook callbacks'
behaviours (whether an invocation throws). -/
structure MockHttp where
  _previousPromise : Option PrevOutcome := none
  _location : Option Nat := none
  _beforeEachNavGuard : Option Bool := none
  _mount : Option Bool := none
  _request : Option ReqSpec := none
  _responses : List RespEntry := []
  _beforeAnyResponse : Option Bool := none
  _beforeEachResponse : Option Bool := none
deriving DecidableEq, Repr

/-- `mockHttp()` (line 745): a fresh series with no configuration. -/
def mockHttp : MockHttp := {}

namespace MockHttp

/-- `route(location)` (lines 233-237). -/
def route (m : MockHttp) (location : Nat) : Except String MockHttp :=
  if m._location.isSome then
    .error "cannot call route() more than once in a single series"
  else .ok { m with _location := some location }

/-- `beforeEachNav(callback)` (lines 239-246). -/
def beforeEachNav (m : MockHttp) (callback : Bool) : Except String MockHttp :=
  if m._beforeEachNavGuard.isSome then
    .error "cannot call beforeEachNav() more than once in a single chain"
  else .ok { m with _beforeEachNavGuard := some callback }

/-- `mount(component, options)` (lines 251-257).  The argument is the mount
callback's behaviour. -/
def mount (m : MockHttp) (component : Bool) : Except String MockHttp :=
  if m._mount.isSome then
    .error "cannot call mount() more than once in a single chain"
  else if m._previousPromise.isSome then
    .error "cannot call mount() after the first series in a chain"
  else .ok { m with _mount := some component }

/-- `request(callback)` (lines 260-266). -/
def request (m : MockHttp) (callback : ReqSpec) : Except String MockHttp :=
  if m._request.isSome then
    .error "cannot call request() more than once in a single series"
  else .ok { m with _request := some callback }

/-- `respond(callback)` (lines 271-288): appends the wrapped callback to the
response queue (the wrapping itself is `mkResponse`, applied when the stub
invokes the callback). -/
def respond (m : MockHttp) (callback : RespEntry) : MockHttp :=
  { m with _responses := m._responses ++ [callback] }

/-- `respondWithData(callback)` (line 290). -/
def respondWithData (m : MockHttp) (callback : RespEntry) : MockHttp :=
  m.respond callback

/-- `respondWithProblem(problemOrCode = 500.1)` (lines 293-295). -/
def respondWithProblem (m : MockHttp)
    (problemOrCode : ProblemArg := ProblemArg.num ((5001 : Rat) / 10)) :
    MockHttp :=
  m.respond (.returns (.problem problemOrCode))

/-- `beforeAnyResponse(callback)` (lines 370-376). -/
def beforeAnyResponse (m : MockHttp) (callback : Bool) : Except String MockHttp :=
  if m._beforeAnyResponse.isSome then
    .error "cannot call beforeAnyResponse() more than once in a single series"
  else .ok { m with _beforeAnyResponse := some callback }

/-- `beforeEachResponse(callback)` (lines 419-425). -/
def beforeEachResponse (m : MockHttp) (callback : Bool) : Except String MockHttp :=
  if m._beforeEachResponse.isSome then
    .error "cannot call beforeEachResponse() more than once in a single series"
  else .ok { m with _beforeEachResponse := some callback }

/-- The synchronous configuration check at the top of `afterResponses()`
(lines 442-443). -/
def afterResponsesCheck (m : MockHttp) : Except String Unit :=
  if m._location.isNone && m._mount.isNone && m._request.isNone then
    .error "route(), mount(), and/or request() required"
  else .ok ()

/-- The `anySetup` test of `toPromise()` (lines 725-728). -/
def anySetup (m : MockHttp) : Bool :=
  m._location.isSome || m._beforeEachNavGuard.isSome || m._mount.isSome ||
    m._request.isSome || !m._responses.isEmpty ||
    m._beforeAnyResponse.isSome || m._beforeEachResponse.isSome

end MockHttp

/-- What `toPromise()` evaluates to (before any pipeline has run):
`resolvedEmpty` is the bare `Promise.resolve()`; `execute m` is the promise of
`m.complete()` (unwrapped to the callback result); `fromPrevious p` is the
previous series' promise (unwrapped likewise). -/
inductive ToPromiseOutcome where
  | resolvedEmpty
  | execute (m : MockHttp)
  | fromPrevious (p : Option PrevOutcome)
deriving DecidableEq, Repr

/-- `toPromise()` (lines 724-734).  `complete()` is
`afterResponses(component => component)`, which throws synchronously when the
configuration check fails; hence the `Except String`. -/
def MockHttp.toPromise (m : MockHttp) : Except String ToPromiseOutcome :=
  if !m.anySetup && m._previousPromise.isNone then .ok .resolvedEmpty
  else if m.anySetup then
    match m.afterResponsesCheck with
    | .error e => .error e
    | .ok _ => .ok (.execute m)
  else .ok (.fromPrevious m._previousPromise)

/-! ## The transport stub (`_http()`, lines 533-582)

`_http()` returns a closure over a request counter `count`.  Each request
synchronously logs its config, updates the two cardinality flags, and — when a
queued response is available — chains a new segment onto
`this._responsesPromise`; requests beyond the queue reject immediately.  The
chained promise then settles the queued responses one at a time, in index
order, running `_tryBeforeAnyResponse` before the first chained response and
`_tryBeforeEachResponse` before each one (skipped once it has errored).

We model one series' worth of concurrently issued requests: `issueAll` is the
synchronous part (executed once per request, in the order the requests were
received), producing the queue of chained segments, and `runChain` executes
the segments in order, producing the trace of observable events. -/

/-- Mutable execution-context state touched by the stub: the request counter
and the flag/error slots initialised in `_initialPromise` (lines 521-527). -/
structure HttpState where
  count : Nat
  requestWithoutResponse : Bool
  responseWithoutRequest : Bool
  errorFromBeforeAnyResponse : Bool
  errorFromBeforeEachResponse : Bool
  errorFromResponse : Bool
deriving DecidableEq, Repr

/-- The state set up by `_initialPromise` (lines 521-527):
`_responseWithoutRequest = this._responses.length !== 0`. -/
def initialHttpState (m : MockHttp) : HttpState where
  count := 0
  requestWithoutResponse := false
  responseWithoutRequest := !m._responses.isEmpty
  errorFromBeforeAnyResponse := false
  errorFromBeforeEachResponse := false
  errorFromResponse := false

/-- How the promise for one queued response settles (lines 560-579):
fulfilled with the response (plus its config), rejected with an error carrying
the response, or rejected because the response callback itself threw. -/
inductive SettleOutcome where
  | fulfilled (resp : Response) (config : Config)
  | rejectedWith (resp : Response) (config : Config)
  | rejectedThrew
deriving DecidableEq, Repr

/-- Observable events of the chained response promise, in the order the chain
runs them. -/
inductive Event where
  | beforeAnyRun
  | beforeEachRun (index : Nat)
  | settled (index : Nat) (s : SettleOutcome)
deriving DecidableEq, Repr

/-- The synchronous body of the stub for one request (lines 536-547).
Returns the updated state and, when a queued response slot is available, the
`(index, config)` pair of the segment chained onto `_responsesPromise`
(`none` models the immediate `Promise.reject(new Error())` for a request
beyond the queue).  `count === this._responses.length - 1` is rendered as
`count + 1 = length`, which also agrees with the JS comparison when the queue
is empty (`0 === -1` is false). -/
def issueRequest (m : MockHttp) (st : HttpState) (config : Config) :
    HttpState × Option (Nat × Config) :=
  if st.count + 1 = m._responses.length then
    ({ st with responseWithoutRequest := false, count := st.count + 1 },
      some (st.count, config))
  else if st.count = m._responses.length then
    ({ st with requestWithoutResponse := true }, none)
  else
    ({ st with count := st.count + 1 }, some (st.count, config))

/-- Issue a batch of concurrent requests in the order they were received,
collecting the chained segments in that same order. -/
def issueAll (m : MockHttp) (st : HttpState) :
    List Config → HttpState × List (Nat × Config)
  | [] => (st, [])
  | c :: cs =>
    let r := issueRequest m st c
    match r.2 with
    | some q => ((issueAll m r.1 cs).1, q :: (issueAll m r.1 cs).2)
    | none => issueAll m r.1 cs

/-- Lines 554-556: run `_tryBeforeAnyResponse()` before the first chained
response only; the hook's error is caught and stored (lines 586-594). -/
def stepBeforeAny (m : MockHttp) (st : HttpState) (index : Nat) :
    HttpState × List Event :=
  match m._beforeAnyResponse with
  | none => (st, [])
  | some throws =>
    if index = 0 then
      ((if throws then { st with errorFromBeforeAnyResponse := true } else st),
        [.beforeAnyRun])
    else (st, [])

/-- Lines 557-559 with `_tryBeforeEachResponse` (lines 599-608): run the hook
before each chained response, skipping it once a previous invocation errored;
the error is caught and stored. -/
def stepBeforeEach (m : MockHttp) (st : HttpState) (index : Nat) :
    HttpState × List Event :=
  match m._beforeEachResponse with
  | none => (st, [])
  | some throws =>
    if st.errorFromBeforeEachResponse then (st, [])
    else
      ((if throws then { st with errorFromBeforeEachResponse := true } else st),
        [.beforeEachRun index])

/-- How the response promise for `index`/`config` settles (lines 560-579):
a 2xx status fulfills with the response-with-config; any other status rejects
with an error whose `response` is the response-with-config; a throwing
response callback rejects with the thrown error. -/
def settleOutcome (m : MockHttp) (index : Nat) (config : Config) :
    SettleOutcome :=
  match runResponseCallback (m._responses.getD index .throws) with
  | .error _ => .rejectedThrew
  | .ok d =>
    if 200 ≤ d.status ∧ d.status < 300 then .fulfilled d config
    else .rejectedWith d config

/-- Lines 560-579: invoke the queued response callback; a throwing callback
stores `_errorFromResponse` (first error kept) and rejects. -/
def stepResponse (m : MockHttp) (st : HttpState) (index : Nat)
    (config : Config) : HttpState × Event :=
  (match runResponseCallback (m._responses.getD index .throws) with
   | .error _ => { st with errorFromResponse := true }
   | .ok _ => st,
   .settled index (settleOutcome m index config))

/-- One segment of `this._responsesPromise` (lines 548-580).  The leading
`.catch(noop)` recovers from a previous segment's rejection, so every segment
runs regardless of how earlier responses settled. -/
def chainSegment (m : MockHttp) (st : HttpState) (index : Nat)
    (config : Config) : HttpState × List Event :=
  let a := stepBeforeAny m st index
  let b := stepBeforeEach m a.1 index
  let r := stepResponse m b.1 index config
  (r.1, a.2 ++ b.2 ++ [r.2])

/-- Execute the chained segments in order (the promise chain settles them
one at a time, in queue order). -/
def runChain (m : MockHttp) (st : HttpState) :
    List (Nat × Config) → HttpState × List Event
  | [] => (st, [])
  | (i, c) :: rest =>
    ((runChain m (chainSegment m st i c).1 rest).1,
      (chainSegment m st i c).2 ++ (runChain m (chainSegment m st i c).1 rest).2)

/-- The stub's complete behaviour on one series: issue the batch of requests
(in received order), then let the chained promise settle the queued responses.
Returns the final execution-context state and the event trace. -/
def execStub (m : MockHttp) (cfgs : List Config) : HttpState × List Event :=
  runChain m (issueAll m (initialHttpState m) cfgs).1
    (issueAll m (initialHttpState m) cfgs).2

/-- The indexes of the responses, in the order they settle in a trace. -/
def settledIndexes (tr : List Event) : List Nat :=
  tr.filterMap fun e =>
    match e with
    | .settled i _ => some i
    | _ => none

/-! ## The execution pipeline (`afterResponses()`, lines 438-473)

`runSeries` models the promise chain built by `afterResponses()` (after its
synchronous configuration check), threading the process-global state: the
module-level `inProgress` flag (line 172) and `Vue.prototype.$http`.  The
environment-dependent behaviour of one execution is a `RunBehavior`: how many
navigation events the installed `beforeEachNav` guard observes, and which
requests are sent by `route()`/`mount()` before the `request()` callback runs
(the callback's own requests live in the series' `ReqSpec`). -/

/-- Process-global state: the module-level `inProgress` flag and the identity
of `Vue.prototype.$http`. -/
structure Global where
  inProgress : Bool
  http : Nat
deriving DecidableEq, Repr

/-- Environment-dependent behaviour of one series execution. -/
structure RunBehavior where
  navEvents : Nat := 0
  preCfgs : List Config := []
  callbackThrows : Bool := false
deriving DecidableEq, Repr

/-- The ways the promise returned by `afterResponses()` can reject. -/
inductive SeriesError where
  | previousRejected
  | anotherSeriesInProgress
  | mountThrew
  | requestBeforeCallback
  | requestCallbackThrew
  | verifyFailed (msg : String)
  | completionCallbackThrew
deriving DecidableEq, Repr

instance {ε α : Type} [DecidableEq ε] [DecidableEq α] :
    DecidableEq (Except ε α) := fun x y =>
  match x, y with
  | .ok a, .ok b =>
    if h : a = b then .isTrue (by rw [h]) else .isFalse (by simp [h])
  | .ok _, .error _ => .isFalse (by simp)
  | .error _, .ok _ => .isFalse (by simp)
  | .error e, .error f =>
    if h : e = f then .isTrue (by rw [h]) else .isFalse (by simp [h])

/-- Result of one series execution: how the promise settled, the global state
afterwards, and the event trace of the response chain. -/
structure SeriesResult where
  outcome : Except SeriesError Unit
  global : Global
  events : List Event
deriving DecidableEq, Repr

/-- The first error produced by the main promise chain between
`_navigateAndMount()` and the `request()` callback (lines 451-461): a throwing
mount rejects the chain; otherwise, when a `request()` callback is configured,
`_checkStateBeforeRequest()` (lines 654-664) throws if any request was already
sent (the request/response log is non-empty), and otherwise the callback runs
and may itself throw. -/
def mainPhaseError (m : MockHttp) (b : RunBehavior) : Option SeriesError :=
  if m._mount = some true then some .mountThrew
  else
    match m._request with
    | none => none
    | some r =>
      if !b.preCfgs.isEmpty then some .requestBeforeCallback
      else if r.throws then some .requestCallbackThrew
      else none

/-- The requests the transport stub receives during the series, in order:
those sent by `route()`/`mount()`, then — when the `request()` callback is
configured, actually runs, and `_checkStateBeforeRequest()` passed — those the
callback sends. -/
def issuedRequests (m : MockHttp) (b : RunBehavior) : List Config :=
  if m._mount = some true then b.preCfgs
  else
    match m._request with
    | none => b.preCfgs
    | some r => if !b.preCfgs.isEmpty then b.preCfgs else b.preCfgs ++ r.cfgs

/-- `_checkStateAfterWait()` (lines 687-711): re-raise the first stored error,
in the source's order, then the cardinality checks. -/
def checkStateAfterWait (errorFromBeforeEachNav : Bool) (st : HttpState) :
    Except SeriesError Unit :=
  if errorFromBeforeEachNav then
    .error (.verifyFailed "beforeEachNav() callback threw an error")
  else if st.errorFromBeforeAnyResponse then
    .error (.verifyFailed "beforeAnyResponse() callback threw an error")
  else if st.errorFromBeforeEachResponse then
    .error (.verifyFailed "beforeEachResponse() callback threw an error")
  else if st.errorFromResponse then
    .error (.verifyFailed "a response callback threw an error")
  else if st.requestWithoutResponse then
    .error (.verifyFailed
      "request without response: no response specified for request")
  else if st.responseWithoutRequest then
    .error (.verifyFailed
      "response without request: not all responses were requested")
  else .ok ()

/-- The promise chain of `afterResponses()` (lines 444-472) together with
`_initialPromise()` (lines 481-529), `_restoreHttp()` (lines 678-684) and
`_cleanUpAfterResponses()` (lines 714-717), as one state-passing function.

* If the previous series' promise rejected, the `.then` body of
  `_initialPromise` never runs (no lock acquisition, no `$http`
  substitution); the trailing `.finally` handlers still run:
  `_restoreHttp` does nothing (`this._inProgress` is unset) and
  `_cleanUpAfterResponses` clears the global flag.
* Otherwise, if the global `inProgress` flag is held, the chain rejects with
  `'another series is in progress'`; again only the `.finally` handlers run.
* Otherwise the series acquires the flag, saves `Vue.prototype.$http` and
  substitutes the stub, runs the guard-install/navigate/mount/request steps,
  lets the stub settle all chained responses during the `.finally(wait)`
  drain, restores `$http`, runs `_checkStateAfterWait`, runs the completion
  callback, and finally clears the flag. -/
def runSeries (m : MockHttp) (b : RunBehavior) (g : Global) : SeriesResult :=
  if (m._previousPromise.map PrevOutcome.rejected).getD false then
    { outcome := .error .previousRejected
      global := { inProgress := false, http := g.http }
      events := [] }
  else if g.inProgress then
    { outcome := .error .anotherSeriesInProgress
      global := { inProgress := false, http := g.http }
      events := [] }
  else
    -- lock acquired; `this._previousHttp = Vue.prototype.$http`;
    -- `setHttp(this._http())` replaces the transport for the series
    let errorFromBeforeEachNav :=
      m._beforeEachNavGuard = some true ∧ b.navEvents ≠ 0
    let issued := issuedRequests m b
    let stubRun := execStub m issued
    -- `.finally(() => this._restoreHttp())`: `$http` back to `_previousHttp`
    let outcome : Except SeriesError Unit :=
      match mainPhaseError m b with
      | some e => .error e
      | none =>
        match checkStateAfterWait (decide errorFromBeforeEachNav) stubRun.1 with
        | .error e => .error e
        | .ok _ =>
          if b.callbackThrows then .error .completionCallbackThrew else .ok ()
    -- `.finally(() => this._cleanUpAfterResponses())`
    { outcome := outcome
      global := { inProgress := false, http := g.http }
      events := stubRun.2 }

/-- **C4.** For every numeric problem code `c`, `respondWithProblem(c)` queues
the same response callback as `respond(() => ({problem: c}))`, whose wrapper
produces a descriptor with status `floor(c)` and body
`{code: c, message: 'There was a problem.'}`; for an object problem the status
is `floor(problem.code)` and the body is the object itself; the default
argument of `respondWithProblem` is the code `500.1` (so the default
descriptor has status `500`). -/
theorem c4_problem_mapping :
    (∀ (m : MockHttp) (p : ProblemArg),
        m.respondWithProblem p = m.respond (.returns (.problem p)) ∧
        (m.respondWithProblem p)._responses
          = m._responses ++ [RespEntry.returns (.problem p)]) ∧
    (∀ c : Rat, mkResponse (.problem (.num c))
        = ⟨c.floor, .codeMessage c "There was a problem."⟩) ∧
    (∀ (code : Rat) (payload : Nat),
        mkResponse (.problem (.obj code payload))
          = ⟨code.floor, .problemObj code payload⟩) ∧
    (∀ m : MockHttp,
        m.respondWithProblem
          = m.respond (.returns (.problem (.num ((5001 : Rat) / 10))))) ∧
    mkResponse (.problem (.num ((5001 : Rat) / 10)))
      = ⟨500, .codeMessage ((5001 : Rat) / 10) "There was a problem."⟩ := by
  refine ⟨fun m p => ⟨rfl, rfl⟩, fun c => rfl, fun code payload => rfl,
    fun m => rfl, ?_⟩
  have hm : ((5001 : Rat) / 10) = mkRat 5001 10 := by
    rw [Rat.mkRat_eq_div]; norm_num
  have h : ((5001 : Rat) / 10).floor = 500 := by rw [hm]; decide
  simp [mkResponse, h]

/-- **C8.** Each single-registration configuration method throws immediately
(and synchronously) exactly when the corresponding option is already set on
the series; `mount` additionally throws when the series has a predecessor. -/
theorem c8_single_registration (m : MockHttp) (location : Nat)
    (guard component : Bool) (callback : ReqSpec) (anyCb eachCb : Bool) :
    ((∃ e, m.route location = .error e) ↔ m._location.isSome) ∧
    ((∃ e, m.beforeEachNav guard = .error e) ↔ m._beforeEachNavGuard.isSome) ∧
    ((∃ e, m.mount component = .error e)
        ↔ (m._mount.isSome ∨ m._previousPromise.isSome)) ∧
    ((∃ e, m.request callback = .error e) ↔ m._request.isSome) ∧
    ((∃ e, m.beforeAnyResponse anyCb = .error e) ↔ m._beforeAnyResponse.isSome) ∧
    ((∃ e, m.beforeEachResponse eachCb = .error e)
        ↔ m._beforeEachResponse.isSome) := by
  refine ⟨?_, ?_, ?_, ?_, ?_, ?_⟩
  · by_cases h : m._location.isSome <;> simp [MockHttp.route, h]
  · by_cases h : m._beforeEachNavGuard.isSome <;> simp [MockHttp.beforeEachNav, h]
  · by_cases h1 : m._mount.isSome <;> by_cases h2 : m._previousPromise.isSome <;>
      simp [MockHttp.mount, h1, h2]
  · by_cases h : m._request.isSome <;> simp [MockHttp.request, h]
  · by_cases h : m._beforeAnyResponse.isSome <;> simp [MockHttp.beforeAnyResponse, h]
  · by_cases h : m._beforeEachResponse.isSome <;> simp [MockHttp.beforeEachResponse, h]

/-- **C9.** Every configuration method is a pure copy-with operation: on
success it returns a new `MockHttp` that copies the receiver's configuration
with only the new option layered on (the receiver itself, being a pure value,
is unchanged).  `respond` (and thus its variants `respondWithData` and
`respondWithProblem`) appends to the response queue and preserves every other
field. -/
theorem c9_immutable_builder (m : MockHttp) (location : Nat)
    (guard component : Bool) (callback : ReqSpec) (anyCb eachCb : Bool)
    (entry : RespEntry) :
    (m._location = none →
      m.route location = .ok { m with _location := some location }) ∧
    (m._beforeEachNavGuard = none →
      m.beforeEachNav guard = .ok { m with _beforeEachNavGuard := some guard }) ∧
    (m._mount = none → m._previousPromise = none →
      m.mount component = .ok { m with _mount := some component }) ∧
    (m._request = none →
      m.request callback = .ok { m with _request := some callback }) ∧
    (m._beforeAnyResponse = none →
      m.beforeAnyResponse anyCb = .ok { m with _beforeAnyResponse := some anyCb }) ∧
    (m._beforeEachResponse = none →
      m.beforeEachResponse eachCb
        = .ok { m with _beforeEachResponse := some eachCb }) ∧
    m.respond entry = { m with _responses := m._responses ++ [entry] } := by
  refine ⟨?_, ?_, ?_, ?_, ?_, ?_, rfl⟩ <;> intro h <;>
    simp_all [MockHttp.route, MockHttp.beforeEachNav, MockHttp.mount,
      MockHttp.request, MockHttp.beforeAnyResponse, MockHttp.beforeEachResponse]

/-- Witness for `c9_immutable_builder` at the fresh series `mockHttp`. -/
theorem c9_immutable_builder_witness :
    mockHttp.route 1 = .ok { mockHttp with _location := some 1 } ∧
    mockHttp.respond .throws
      = { mockHttp with _responses := [RespEntry.throws] } := by
  exact ⟨(c9_immutable_builder mockHttp 1 false false ⟨[], false⟩ false false
      .throws).1 rfl,
    (c9_immutable_builder mockHttp 1 false false ⟨[], false⟩ false false
      .throws).2.2.2.2.2.2⟩

/-- **C10.** Awaiting a freshly created series (`mockHttp()`, no configuration
and no previous series) resolves immediately with no value: `toPromise()`
returns the bare `Promise.resolve()` without running `complete()`, even though
`afterResponses` / `complete` would throw the `'route(), mount(), and/or
request() required'` configuration error for the same series. -/
theorem c10_await_fresh_series :
    mockHttp.toPromise = .ok .resolvedEmpty ∧
    mockHttp.afterResponsesCheck
      = .error "route(), mount(), and/or request() required" := by
  exact ⟨rfl, rfl⟩

/-! ## Characterization of the stub's step functions -/

theorem stepBeforeAny_events (m : MockHttp) (st : HttpState) (i : Nat) :
    (stepBeforeAny m st i).2
      = if m._beforeAnyResponse.isSome ∧ i = 0 then [Event.beforeAnyRun]
        else [] := by
  unfold stepBeforeAny
  cases m._beforeAnyResponse <;> by_cases h : i = 0 <;> simp [h]

theorem stepBeforeAny_state (m : MockHttp) (st : HttpState) (i : Nat) :
    (stepBeforeAny m st i).1
      = if m._beforeAnyResponse = some true ∧ i = 0
        then { st with errorFromBeforeAnyResponse := true } else st := by
  unfold stepBeforeAny
  rcases m._beforeAnyResponse with _ | b
  · simp
  · by_cases h : i = 0 <;> cases b <;> simp [h]

theorem stepBeforeEach_events (m : MockHttp) (st : HttpState) (i : Nat) :
    (stepBeforeEach m st i).2
      = if m._beforeEachResponse.isSome ∧ st.errorFromBeforeEachResponse = false
        then [Event.beforeEachRun i] else [] := by
  unfold stepBeforeEach
  rcases m._beforeEachResponse with _ | b
  · simp
  · cases hs : st.errorFromBeforeEachResponse <;> simp [hs]

theorem stepBeforeEach_state (m : MockHttp) (st : HttpState) (i : Nat) :
    (stepBeforeEach m st i).1
      = if m._beforeEachResponse = some true ∧ st.errorFromBeforeEachResponse = false
        then { st with errorFromBeforeEachResponse := true } else st := by
  unfold stepBeforeEach
  rcases m._beforeEachResponse with _ | b
  · simp
  · cases hs : st.errorFromBeforeEachResponse <;> cases b <;> simp [hs]

theorem stepResponse_event (m : MockHttp) (st : HttpState) (i c : Nat) :
    (stepResponse m st i c).2 = .settled i (settleOutcome m i c) := rfl

theorem stepResponse_state (m : MockHttp) (st : HttpState) (i c : Nat) :
    (stepResponse m st i c).1
      = if m._responses.getD i .throws = .throws
        then { st with errorFromResponse := true } else st := by
  unfold stepResponse
  cases h : m._responses.getD i .throws <;> simp [runResponseCallback, h]

/-! ## Characterization of the issue phase -/

theorem issueAll_count (m : MockHttp) (cfgs : List Config) (st : HttpState)
    (h : st.count ≤ m._responses.length) :
    (issueAll m st cfgs).1.count
      = min (st.count + cfgs.length) m._responses.length := by
  induction cfgs generalizing st with
  | nil => simp [issueAll]; omega
  | cons c cs ih =>
    by_cases h1 : st.count + 1 = m._responses.length
    · have := ih { st with responseWithoutRequest := false, count := st.count + 1 }
        (by simp; omega)
      simp only [issueAll, issueRequest, if_pos h1] at *
      simp only [List.length_cons] at *
      rw [this]; omega
    · by_cases h2 : st.count = m._responses.length
      · have := ih { st with requestWithoutResponse := true } (by simpa using h)
        simp only [issueAll, issueRequest, if_neg h1, if_pos h2] at *
        simp only [List.length_cons] at *
        rw [this]; omega
      · have := ih { st with count := st.count + 1 } (by simp; omega)
        simp only [issueAll, issueRequest, if_neg h1, if_neg h2] at *
        simp only [List.length_cons] at *
        rw [this]; omega

theorem issueAll_queue (m : MockHttp) (cfgs : List Config) (st : HttpState)
    (h : st.count ≤ m._responses.length) :
    (issueAll m st cfgs).2
      = (List.range' st.count
          (min (st.count + cfgs.length) m._responses.length - st.count)).zip
          cfgs := by
  induction cfgs generalizing st with
  | nil =>
    have h0 : min (st.count + 0) m._responses.length - st.count = 0 := by omega
    simp [issueAll, h0]
  | cons c cs ih =>
    by_cases h1 : st.count + 1 = m._responses.length
    · have hih := ih { st with responseWithoutRequest := false, count := st.count + 1 }
        (by simp; omega)
      have hk : min (st.count + (c :: cs).length) m._responses.length - st.count
          = (min (st.count + 1 + cs.length) m._responses.length - (st.count + 1))
            + 1 := by
        simp only [List.length_cons]; omega
      rw [hk, List.range'_succ]
      simp only [issueAll, issueRequest, if_pos h1]
      rw [List.zip_cons_cons]
      simp only [hih]
    · by_cases h2 : st.count = m._responses.length
      · have hih := ih { st with requestWithoutResponse := true } (by simpa using h)
        have hk0 : min (st.count + (c :: cs).length) m._responses.length
            - st.count = 0 := by simp only [List.length_cons]; omega
        have hk0' : min (st.count + cs.length) m._responses.length - st.count = 0 := by
          omega
        rw [hk0]
        simp only [issueAll, issueRequest, if_neg h1, if_pos h2]
        rw [hih, hk0']
        simp [List.range']
      · have hih := ih { st with count := st.count + 1 } (by simp; omega)
        have hk : min (st.count + (c :: cs).length) m._responses.length - st.count
            = (min (st.count + 1 + cs.length) m._responses.length - (st.count + 1))
              + 1 := by
          simp only [List.length_cons]; omega
        rw [hk, List.range'_succ]
        simp only [issueAll, issueRequest, if_neg h1, if_neg h2]
        rw [List.zip_cons_cons]
        simp only [hih]

theorem issueAll_requestWithoutResponse (m : MockHttp) (cfgs : List Config)
    (st : HttpState) (h : st.count ≤ m._responses.length) :
    ((issueAll m st cfgs).1.requestWithoutResponse = true
      ↔ (st.requestWithoutResponse = true
          ∨ m._responses.length < st.count + cfgs.length)) := by
  induction cfgs generalizing st with
  | nil => simp [issueAll]; omega
  | cons c cs ih =>
    by_cases h1 : st.count + 1 = m._responses.length
    · have := ih { st with responseWithoutRequest := false, count := st.count + 1 }
        (by simp; omega)
      simp only [issueAll, issueRequest, if_pos h1] at *
      rw [this]; simp only [List.length_cons]
      constructor
      · rintro (hh | hh)
        · exact Or.inl hh
        · right; omega
      · rintro (hh | hh)
        · exact Or.inl hh
        · right; omega
    · by_cases h2 : st.count = m._responses.length
      · have := ih { st with requestWithoutResponse := true } (by simpa using h)
        simp only [issueAll, issueRequest, if_neg h1, if_pos h2] at *
        rw [this]; simp only [List.length_cons]
        constructor
        · intro; right; omega
        · intro; left; trivial
      · have := ih { st with count := st.count + 1 } (by simp; omega)
        simp only [issueAll, issueRequest, if_neg h1, if_neg h2] at *
        rw [this]; simp only [List.length_cons]
        constructor
        · rintro (hh | hh)
          · exact Or.inl hh
          · right; omega
        · rintro (hh | hh)
          · exact Or.inl hh
          · right; omega

theorem issueAll_responseWithoutRequest (m : MockHttp) (cfgs : List Config)
    (st : HttpState) (h : st.count ≤ m._responses.length) :
    ((issueAll m st cfgs).1.responseWithoutRequest = true
      ↔ (st.responseWithoutRequest = true
          ∧ ¬(st.count < m._responses.length
              ∧ m._responses.length ≤ st.count + cfgs.length))) := by
  induction cfgs generalizing st with
  | nil => simp [issueAll]
  | cons c cs ih =>
    by_cases h1 : st.count + 1 = m._responses.length
    · have := ih { st with responseWithoutRequest := false, count := st.count + 1 }
        (by simp; omega)
      simp only [issueAll, issueRequest, if_pos h1] at *
      rw [this]; simp only [List.length_cons]
      have hY : st.count < m._responses.length ∧
          m._responses.length ≤ st.count + (cs.length + 1) := ⟨by omega, by omega⟩
      simp [hY]
    · by_cases h2 : st.count = m._responses.length
      · have := ih { st with requestWithoutResponse := true } (by simpa using h)
        simp only [issueAll, issueRequest, if_neg h1, if_pos h2] at *
        rw [this]; simp only [List.length_cons]
        constructor
        · rintro ⟨hh, _⟩; exact ⟨hh, by omega⟩
        · rintro ⟨hh, _⟩; exact ⟨hh, by omega⟩
      · have := ih { st with count := st.count + 1 } (by simp; omega)
        simp only [issueAll, issueRequest, if_neg h1, if_neg h2] at *
        rw [this]; simp only [List.length_cons]
        constructor
        · rintro ⟨hh, hh2⟩; exact ⟨hh, by omega⟩
        · rintro ⟨hh, hh2⟩; exact ⟨hh, by omega⟩

theorem issueAll_errors (m : MockHttp) (cfgs : List Config) (st : HttpState) :
    (issueAll m st cfgs).1.errorFromBeforeAnyResponse
        = st.errorFromBeforeAnyResponse ∧
    (issueAll m st cfgs).1.errorFromBeforeEachResponse
        = st.errorFromBeforeEachResponse ∧
    (issueAll m st cfgs).1.errorFromResponse = st.errorFromResponse := by
  induction cfgs generalizing st with
  | nil => exact ⟨rfl, rfl, rfl⟩
  | cons c cs ih =>
    by_cases h1 : st.count + 1 = m._responses.length
    · have := ih { st with responseWithoutRequest := false, count := st.count + 1 }
      simp only [issueAll, issueRequest, if_pos h1] at *
      exact this
    · by_cases h2 : st.count = m._responses.length
      · have := ih { st with requestWithoutResponse := true }
        simp only [issueAll, issueRequest, if_neg h1, if_pos h2] at *
        exact this
      · have := ih { st with count := st.count + 1 }
        simp only [issueAll, issueRequest, if_neg h1, if_neg h2] at *
        exact this

/-! ## Characterization of the chained response promise -/

theorem chainSegment_events (m : MockHttp) (st : HttpState) (i c : Nat) :
    (chainSegment m st i c).2
      = (if m._beforeAnyResponse.isSome ∧ i = 0 then [Event.beforeAnyRun]
          else [])
        ++ (if m._beforeEachResponse.isSome
              ∧ st.errorFromBeforeEachResponse = false
            then [Event.beforeEachRun i] else [])
        ++ [Event.settled i (settleOutcome m i c)] := by
  have hpre : (stepBeforeAny m st i).1.errorFromBeforeEachResponse
      = st.errorFromBeforeEachResponse := by
    rw [stepBeforeAny_state]; split <;> rfl
  show (stepBeforeAny m st i).2
      ++ (stepBeforeEach m (stepBeforeAny m st i).1 i).2
      ++ [(stepResponse m (stepBeforeEach m (stepBeforeAny m st i).1 i).1 i c).2]
    = _
  rw [stepBeforeAny_events, stepBeforeEach_events, stepResponse_event, hpre]

theorem chainSegment_shape (m : MockHttp) (st : HttpState) (i c : Nat) :
    ∃ a e r, (chainSegment m st i c).1
      = { st with errorFromBeforeAnyResponse := a,
                  errorFromBeforeEachResponse := e,
                  errorFromResponse := r } := by
  show ∃ a e r,
    (stepResponse m (stepBeforeEach m (stepBeforeAny m st i).1 i).1 i c).1 = _
  rw [stepBeforeAny_state, stepBeforeEach_state, stepResponse_state]
  split <;> split <;> split <;> exact ⟨_, _, _, rfl⟩

theorem chainSegment_frame (m : MockHttp) (st : HttpState) (i c : Nat) :
    (chainSegment m st i c).1.count = st.count ∧
    (chainSegment m st i c).1.requestWithoutResponse
        = st.requestWithoutResponse ∧
    (chainSegment m st i c).1.responseWithoutRequest
        = st.responseWithoutRequest := by
  obtain ⟨a, e, r, hs⟩ := chainSegment_shape m st i c
  rw [hs]; exact ⟨rfl, rfl, rfl⟩

theorem chainSegment_any (m : MockHttp) (st : HttpState) (i c : Nat) :
    (chainSegment m st i c).1.errorFromBeforeAnyResponse
      = (st.errorFromBeforeAnyResponse
          || decide (m._beforeAnyResponse = some true ∧ i = 0)) := by
  show (stepResponse m (stepBeforeEach m (stepBeforeAny m st i).1 i).1 i c).1.errorFromBeforeAnyResponse = _
  rw [stepBeforeAny_state, stepBeforeEach_state, stepResponse_state]
  split <;> split <;> split <;> simp_all

theorem chainSegment_each (m : MockHttp) (st : HttpState) (i c : Nat) :
    (chainSegment m st i c).1.errorFromBeforeEachResponse
      = (st.errorFromBeforeEachResponse
          || decide (m._beforeEachResponse = some true)) := by
  show (stepResponse m (stepBeforeEach m (stepBeforeAny m st i).1 i).1 i c).1.errorFromBeforeEachResponse = _
  rw [stepBeforeAny_state, stepBeforeEach_state, stepResponse_state]
  split <;> split <;> split <;> simp_all

theorem chainSegment_resp (m : MockHttp) (st : HttpState) (i c : Nat) :
    (chainSegment m st i c).1.errorFromResponse
      = (st.errorFromResponse
          || decide (m._responses.getD i .throws = .throws)) := by
  show (stepResponse m (stepBeforeEach m (stepBeforeAny m st i).1 i).1 i c).1.errorFromResponse = _
  rw [stepBeforeAny_state, stepBeforeEach_state, stepResponse_state]
  split <;> split <;> split <;> simp_all

theorem settledIndexes_append (a b : List Event) :
    settledIndexes (a ++ b) = settledIndexes a ++ settledIndexes b := by
  unfold settledIndexes; exact List.filterMap_append a b _

theorem settledIndexes_chainSegment (m : MockHttp) (st : HttpState) (i c : Nat) :
    settledIndexes (chainSegment m st i c).2 = [i] := by
  rw [chainSegment_events]
  unfold settledIndexes
  split <;> split <;> simp

theorem runChain_settledIndexes (m : MockHttp) (q : List (Nat × Config))
    (st : HttpState) :
    settledIndexes (runChain m st q).2 = q.map Prod.fst := by
  induction q generalizing st with
  | nil => rfl
  | cons p rest ih =>
    obtain ⟨i, c⟩ := p
    simp only [runChain]
    rw [settledIndexes_append, settledIndexes_chainSegment, ih]
    rfl

theorem runChain_anyRun_notMem_of_none (m : MockHttp)
    (q : List (Nat × Config)) (st : HttpState)
    (ha : m._beforeAnyResponse = none) :
    Event.beforeAnyRun ∉ (runChain m st q).2 := by
  induction q generalizing st with
  | nil => simp [runChain]
  | cons p rest ih =>
    obtain ⟨i, c⟩ := p
    simp only [runChain, List.mem_append, not_or]
    refine ⟨?_, ih _⟩
    rw [chainSegment_events]
    split <;> split <;> simp_all

theorem runChain_anyRun_notMem_of_pos (m : MockHttp)
    (q : List (Nat × Config)) :
    ∀ st : HttpState, (∀ p ∈ q, p.1 ≠ 0) →
      Event.beforeAnyRun ∉ (runChain m st q).2 := by
  induction q with
  | nil => intro st _; simp [runChain]
  | cons p rest ih =>
    intro st hq
    obtain ⟨i, c⟩ := p
    have hi : i ≠ 0 := hq (i, c) (List.mem_cons_self _ _)
    simp only [runChain, List.mem_append, not_or]
    refine ⟨?_, ih _ (fun p hp => hq p (List.mem_cons_of_mem _ hp))⟩
    rw [chainSegment_events]
    split <;> split <;> simp_all

theorem runChain_head_beforeAny (m : MockHttp) (c : Config)
    (rest : List (Nat × Config)) (st : HttpState)
    (ha : m._beforeAnyResponse.isSome = true)
    (hrest : ∀ p ∈ rest, p.1 ≠ 0) :
    ∃ tl, (runChain m st ((0, c) :: rest)).2 = Event.beforeAnyRun :: tl
      ∧ Event.beforeAnyRun ∉ tl := by
  simp only [runChain]
  rw [chainSegment_events]
  rw [if_pos (show m._beforeAnyResponse.isSome = true ∧ 0 = 0 from ⟨ha, rfl⟩)]
  refine ⟨(if m._beforeEachResponse.isSome = true
        ∧ st.errorFromBeforeEachResponse = false
      then [Event.beforeEachRun 0] else [])
      ++ Event.settled 0 (settleOutcome m 0 c)
        :: (runChain m (chainSegment m st 0 c).1 rest).2, by simp, ?_⟩
  simp only [List.mem_append, List.mem_cons, not_or]
  refine ⟨?_, ?_, runChain_anyRun_notMem_of_pos m rest _ hrest⟩
  · split <;> simp
  · simp

theorem runChain_each_notMem_of_errored (m : MockHttp)
    (q : List (Nat × Config)) (st : HttpState) (j : Nat)
    (hst : st.errorFromBeforeEachResponse = true) :
    Event.beforeEachRun j ∉ (runChain m st q).2 := by
  induction q generalizing st with
  | nil => simp [runChain]
  | cons p rest ih =>
    obtain ⟨i, c⟩ := p
    have hst' : (chainSegment m st i c).1.errorFromBeforeEachResponse = true := by
      rw [chainSegment_each, hst]; rfl
    simp only [runChain, List.mem_append, not_or]
    refine ⟨?_, ih _ hst'⟩
    rw [chainSegment_events, hst]
    split <;> simp_all

theorem runChain_each_head (m : MockHttp) (i : Nat) (c : Config)
    (rest : List (Nat × Config)) (st : HttpState)
    (he : m._beforeEachResponse.isSome = true)
    (hst : st.errorFromBeforeEachResponse = false) :
    ∃ l1 s l2, (runChain m st ((i, c) :: rest)).2
      = l1 ++ Event.beforeEachRun i :: Event.settled i s :: l2 := by
  simp only [runChain]
  rw [chainSegment_events]
  rw [if_pos (show m._beforeEachResponse.isSome = true
      ∧ st.errorFromBeforeEachResponse = false from ⟨he, hst⟩)]
  exact ⟨(if m._beforeAnyResponse.isSome = true ∧ i = 0
      then [Event.beforeAnyRun] else []),
    settleOutcome m i c,
    (runChain m (chainSegment m st i c).1 rest).2, by simp⟩

theorem runChain_each_adjacent (m : MockHttp) (q : List (Nat × Config))
    (he : m._beforeEachResponse = some false) :
    ∀ st : HttpState, st.errorFromBeforeEachResponse = false →
      ∀ i c, (i, c) ∈ q →
        ∃ l1 s l2, (runChain m st q).2
          = l1 ++ Event.beforeEachRun i :: Event.settled i s :: l2 := by
  induction q with
  | nil => intro st _ i c hmem; cases hmem
  | cons p rest ih =>
    intro st hst i c hmem
    obtain ⟨j, d⟩ := p
    rcases List.mem_cons.mp hmem with heq | hmem'
    · injection heq with h1 h2
      subst h1; subst h2
      exact runChain_each_head m i c rest st (by rw [he]; rfl) hst
    · have hst' : (chainSegment m st j d).1.errorFromBeforeEachResponse
          = false := by
        rw [chainSegment_each, hst, he]; rfl
      obtain ⟨l1, s, l2, hl⟩ := ih (chainSegment m st j d).1 hst' i c hmem'
      refine ⟨(chainSegment m st j d).2 ++ l1, s, l2, ?_⟩
      simp only [runChain]
      rw [hl, List.append_assoc]

theorem runChain_settled_mem (m : MockHttp) (q : List (Nat × Config)) :
    ∀ st : HttpState, ∀ i c, (i, c) ∈ q →
      Event.settled i (settleOutcome m i c) ∈ (runChain m st q).2 := by
  induction q with
  | nil => intro st i c hmem; cases hmem
  | cons p rest ih =>
    intro st i c hmem
    obtain ⟨j, d⟩ := p
    simp only [runChain, List.mem_append]
    rcases List.mem_cons.mp hmem with heq | hmem'
    · injection heq with h1 h2
      subst h1; subst h2
      left; rw [chainSegment_events]; simp
    · exact Or.inr (ih _ i c hmem')

theorem runChain_any_iff (m : MockHttp) (q : List (Nat × Config))
    (st : HttpState) :
    ((runChain m st q).1.errorFromBeforeAnyResponse = true
      ↔ st.errorFromBeforeAnyResponse = true
        ∨ (m._beforeAnyResponse = some true ∧ ∃ p ∈ q, p.1 = 0)) := by
  induction q generalizing st with
  | nil => simp [runChain]
  | cons p rest ih =>
    obtain ⟨i, c⟩ := p
    simp only [runChain]
    rw [ih, chainSegment_any]
    simp only [Bool.or_eq_true, decide_eq_true_eq, List.mem_cons]
    constructor
    · rintro ((hh | ⟨hh, rfl⟩) | ⟨hh, p, hp, hp1⟩)
      · exact Or.inl hh
      · exact Or.inr ⟨hh, (0, c), Or.inl rfl, rfl⟩
      · exact Or.inr ⟨hh, p, Or.inr hp, hp1⟩
    · rintro (hh | ⟨hh, p, (rfl | hp), hp1⟩)
      · exact Or.inl (Or.inl hh)
      · exact Or.inl (Or.inr ⟨hh, hp1⟩)
      · exact Or.inr ⟨hh, p, hp, hp1⟩

theorem runChain_each_iff (m : MockHttp) (q : List (Nat × Config))
    (st : HttpState) :
    ((runChain m st q).1.errorFromBeforeEachResponse = true
      ↔ st.errorFromBeforeEachResponse = true
        ∨ (m._beforeEachResponse = some true ∧ q ≠ [])) := by
  induction q generalizing st with
  | nil => simp [runChain]
  | cons p rest ih =>
    obtain ⟨i, c⟩ := p
    simp only [runChain]
    rw [ih, chainSegment_each]
    simp only [Bool.or_eq_true, decide_eq_true_eq]
    constructor
    · rintro ((hh | hh) | ⟨hh, _⟩)
      · exact Or.inl hh
      · exact Or.inr ⟨hh, by simp⟩
      · exact Or.inr ⟨hh, by simp⟩
    · rintro (hh | ⟨hh, _⟩)
      · exact Or.inl (Or.inl hh)
      · exact Or.inl (Or.inr hh)

theorem runChain_resp_iff (m : MockHttp) (q : List (Nat × Config))
    (st : HttpState) :
    ((runChain m st q).1.errorFromResponse = true
      ↔ st.errorFromResponse = true
        ∨ ∃ p ∈ q, m._responses.getD p.1 .throws = .throws) := by
  induction q generalizing st with
  | nil => simp [runChain]
  | cons p rest ih =>
    obtain ⟨i, c⟩ := p
    simp only [runChain]
    rw [ih, chainSegment_resp]
    simp only [Bool.or_eq_true, decide_eq_true_eq, List.mem_cons]
    constructor
    · rintro ((hh | hh) | ⟨p, hp, hp1⟩)
      · exact Or.inl hh
      · exact Or.inr ⟨(i, c), Or.inl rfl, hh⟩
      · exact Or.inr ⟨p, Or.inr hp, hp1⟩
    · rintro (hh | ⟨p, (rfl | hp), hp1⟩)
      · exact Or.inl (Or.inl hh)
      · exact Or.inl (Or.inr hp1)
      · exact Or.inr ⟨p, hp, hp1⟩

theorem runChain_frame (m : MockHttp) (q : List (Nat × Config))
    (st : HttpState) :
    (runChain m st q).1.count = st.count ∧
    (runChain m st q).1.requestWithoutResponse = st.requestWithoutResponse ∧
    (runChain m st q).1.responseWithoutRequest = st.responseWithoutRequest := by
  induction q generalizing st with
  | nil => exact ⟨rfl, rfl, rfl⟩
  | cons p rest ih =>
    obtain ⟨i, c⟩ := p
    obtain ⟨h1, h2, h3⟩ := chainSegment_frame m st i c
    obtain ⟨g1, g2, g3⟩ := ih (chainSegment m st i c).1
    simp only [runChain]
    exact ⟨g1.trans h1, g2.trans h2, g3.trans h3⟩

/-! ## Top-level characterization of `execStub` -/

theorem mem_zip_of_getElem? {α β : Type} {l1 : List α} {l2 : List β} :
    ∀ (i : Nat) (a : α) (b : β), l1[i]? = some a → l2[i]? = some b →
      (a, b) ∈ l1.zip l2 := by
  induction l1 generalizing l2 with
  | nil => intro i a b h; simp at h
  | cons x xs ih =>
    intro i a b h1 h2
    cases l2 with
    | nil => simp at h2
    | cons y ys =>
      cases i with
      | zero =>
        simp only [List.getElem?_cons_zero, Option.some.injEq] at h1 h2
        subst h1; subst h2
        exact List.mem_cons_self _ _
      | succ n =>
        simp only [List.getElem?_cons_succ] at h1 h2
        exact List.mem_cons_of_mem _ (ih n a b h1 h2)

theorem exists_mem_zip_range_iff {β : Type} (k : Nat) (l : List β)
    (hk : k ≤ l.length) (P : Nat → Prop) :
    (∃ p ∈ (List.range k).zip l, P p.1) ↔ ∃ i, i < k ∧ P i := by
  constructor
  · rintro ⟨⟨i, b⟩, hmem, hP⟩
    exact ⟨i, List.mem_range.mp (List.of_mem_zip hmem).1, hP⟩
  · rintro ⟨i, hik, hP⟩
    have hi : i < l.length := lt_of_lt_of_le hik hk
    refine ⟨(i, l[i]), mem_zip_of_getElem? i i l[i] ?_ ?_, hP⟩
    · exact List.getElem?_range hik
    · exact List.getElem?_eq_getElem hi

theorem initial_count_le (m : MockHttp) :
    (initialHttpState m).count ≤ m._responses.length := by
  simp [initialHttpState]

theorem issueAll_queue_initial (m : MockHttp) (cfgs : List Config) :
    (issueAll m (initialHttpState m) cfgs).2
      = (List.range (min cfgs.length m._responses.length)).zip cfgs := by
  rw [issueAll_queue m cfgs _ (initial_count_le m)]
  have h0 : (initialHttpState m).count = 0 := rfl
  rw [h0, List.range_eq_range']
  norm_num

theorem execStub_requestWithoutResponse (m : MockHttp) (cfgs : List Config) :
    ((execStub m cfgs).1.requestWithoutResponse = true
      ↔ m._responses.length < cfgs.length) := by
  unfold execStub
  rw [(runChain_frame m _ _).2.1,
    issueAll_requestWithoutResponse m cfgs _ (initial_count_le m)]
  simp [initialHttpState]

theorem execStub_responseWithoutRequest (m : MockHttp) (cfgs : List Config) :
    ((execStub m cfgs).1.responseWithoutRequest = true
      ↔ (m._responses.length ≠ 0 ∧ cfgs.length < m._responses.length)) := by
  unfold execStub
  rw [(runChain_frame m _ _).2.2,
    issueAll_responseWithoutRequest m cfgs _ (initial_count_le m)]
  simp only [initialHttpState, Bool.not_eq_true', Nat.zero_add]
  rw [show (m._responses.isEmpty = false ↔ m._responses.length ≠ 0) from by
    cases m._responses <;> simp]
  constructor
  · rintro ⟨h1, h2⟩
    refine ⟨h1, ?_⟩
    by_contra hc
    exact h2 ⟨by omega, by omega⟩
  · rintro ⟨h1, h2⟩
    exact ⟨h1, fun hh => by omega⟩

theorem execStub_any (m : MockHttp) (cfgs : List Config) :
    ((execStub m cfgs).1.errorFromBeforeAnyResponse = true
      ↔ (m._beforeAnyResponse = some true
          ∧ 0 < min cfgs.length m._responses.length)) := by
  unfold execStub
  rw [runChain_any_iff, (issueAll_errors m cfgs _).1, issueAll_queue_initial]
  have h := exists_mem_zip_range_iff (min cfgs.length m._responses.length)
    cfgs (min_le_left _ _) (fun i => i = 0)
  rw [h]
  simp only [initialHttpState]
  constructor
  · rintro (hh | ⟨hh, i, hik, rfl⟩)
    · cases hh
    · exact ⟨hh, hik⟩
  · rintro ⟨hh, hk⟩
    exact Or.inr ⟨hh, 0, hk, rfl⟩

theorem execStub_each (m : MockHttp) (cfgs : List Config) :
    ((execStub m cfgs).1.errorFromBeforeEachResponse = true
      ↔ (m._beforeEachResponse = some true
          ∧ 0 < min cfgs.length m._responses.length)) := by
  unfold execStub
  rw [runChain_each_iff, (issueAll_errors m cfgs _).2.1, issueAll_queue_initial]
  simp only [initialHttpState]
  have hne : (List.range (min cfgs.length m._responses.length)).zip cfgs ≠ []
      ↔ 0 < min cfgs.length m._responses.length := by
    rw [← List.length_pos, List.length_zip, List.length_range]
    omega
  rw [hne]
  constructor
  · rintro (hh | hh)
    · cases hh
    · exact hh
  · exact fun hh => Or.inr hh

theorem execStub_resp (m : MockHttp) (cfgs : List Config) :
    ((execStub m cfgs).1.errorFromResponse = true
      ↔ ∃ i, i < min cfgs.length m._responses.length
          ∧ m._responses.getD i .throws = .throws) := by
  unfold execStub
  rw [runChain_resp_iff, (issueAll_errors m cfgs _).2.2, issueAll_queue_initial]
  simp only [initialHttpState]
  have := exists_mem_zip_range_iff (min cfgs.length m._responses.length) cfgs
    (min_le_left _ _) (fun i => m._responses.getD i .throws = .throws)
  rw [this]
  constructor
  · rintro (hh | hh)
    · cases hh
    · exact hh
  · exact fun hh => Or.inr hh

theorem execStub_settledIndexes (m : MockHttp) (cfgs : List Config) :
    settledIndexes (execStub m cfgs).2
      = List.range (min cfgs.length m._responses.length) := by
  unfold execStub
  rw [runChain_settledIndexes, issueAll_queue_initial, List.map_fst_zip]
  rw [List.length_range]
  exact min_le_left _ _

/-! ## Characterization of the pipeline -/

theorem mainPhaseError_none_req (m : MockHttp) (b : RunBehavior)
    (hr : m._request = none) (hm : ¬m._mount = some true) :
    mainPhaseError m b = none := by
  unfold mainPhaseError; rw [if_neg hm, hr]

theorem mainPhaseError_some_req (m : MockHttp) (b : RunBehavior) (r : ReqSpec)
    (hr : m._request = some r) (hm : ¬m._mount = some true) :
    mainPhaseError m b
      = if !b.preCfgs.isEmpty then some .requestBeforeCallback
        else if r.throws then some .requestCallbackThrew else none := by
  unfold mainPhaseError; rw [if_neg hm, hr]

theorem issuedRequests_none_req (m : MockHttp) (b : RunBehavior)
    (hr : m._request = none) (hm : ¬m._mount = some true) :
    issuedRequests m b = b.preCfgs := by
  unfold issuedRequests; rw [if_neg hm, hr]

theorem issuedRequests_some_req (m : MockHttp) (b : RunBehavior) (r : ReqSpec)
    (hr : m._request = some r) (hm : ¬m._mount = some true) :
    issuedRequests m b
      = if !b.preCfgs.isEmpty then b.preCfgs else b.preCfgs ++ r.cfgs := by
  unfold issuedRequests; rw [if_neg hm, hr]

theorem mainPhaseError_cases (m : MockHttp) (b : RunBehavior) (e : SeriesError)
    (h : mainPhaseError m b = some e) :
    e = .mountThrew ∨ e = .requestBeforeCallback ∨ e = .requestCallbackThrew := by
  by_cases hm : m._mount = some true
  · unfold mainPhaseError at h
    rw [if_pos hm] at h
    exact Or.inl (Option.some.inj h).symm
  · rcases hr : m._request with _ | r
    · rw [mainPhaseError_none_req m b hr hm] at h
      cases h
    · rw [mainPhaseError_some_req m b r hr hm] at h
      by_cases hp : (!b.preCfgs.isEmpty) = true
      · rw [if_pos hp] at h
        exact Or.inr (Or.inl (Option.some.inj h).symm)
      · rw [if_neg hp] at h
        by_cases ht : r.throws = true
        · rw [if_pos ht] at h
          exact Or.inr (Or.inr (Option.some.inj h).symm)
        · rw [if_neg ht] at h
          cases h

theorem checkStateAfterWait_error_shape (nav : Bool) (st : HttpState)
    (e : SeriesError) (h : checkStateAfterWait nav st = .error e) :
    ∃ msg, e = .verifyFailed msg := by
  unfold checkStateAfterWait at h
  split_ifs at h <;> first
    | (exact ⟨_, (Except.error.inj h).symm⟩)
    | cases h

theorem runSeries_acquired (m : MockHttp) (b : RunBehavior) (g : Global)
    (hprev : (m._previousPromise.map PrevOutcome.rejected).getD false = false)
    (hflag : g.inProgress = false) :
    runSeries m b g =
      { outcome :=
          match mainPhaseError m b with
          | some e => .error e
          | none =>
            match checkStateAfterWait
                (decide (m._beforeEachNavGuard = some true ∧ b.navEvents ≠ 0))
                (execStub m (issuedRequests m b)).1 with
            | .error e => .error e
            | .ok _ =>
              if b.callbackThrows then .error .completionCallbackThrew
              else .ok ()
        global := ⟨false, g.http⟩
        events := (execStub m (issuedRequests m b)).2 } := by
  unfold runSeries
  rw [hprev, hflag]
  simp

theorem runSeries_no_lock_error (m : MockHttp) (b : RunBehavior) (g : Global)
    (hg : g.inProgress = false) :
    (runSeries m b g).outcome ≠ .error .anotherSeriesInProgress := by
  by_cases hp : (m._previousPromise.map PrevOutcome.rejected).getD false = false
  · rcases hm : mainPhaseError m b with _ | e
    · rcases hc : checkStateAfterWait
          (decide (m._beforeEachNavGuard = some true ∧ b.navEvents ≠ 0))
          (execStub m (issuedRequests m b)).1 with e | hcv
      · rw [runSeries_acquired m b g hp hg]
        simp only [hm, hc]
        obtain ⟨msg, rfl⟩ := checkStateAfterWait_error_shape _ _ _ hc
        simp
      · rw [runSeries_acquired m b g hp hg]
        simp only [hm, hc]
        split <;> simp
    · rw [runSeries_acquired m b g hp hg]
      simp only [hm]
      rcases mainPhaseError_cases m b e hm with rfl | rfl | rfl <;> simp
  · have hp' : (m._previousPromise.map PrevOutcome.rejected).getD false = true := by
      revert hp; cases (m._previousPromise.map PrevOutcome.rejected).getD false <;>
        simp
    unfold runSeries
    rw [hp']
    simp

/-- **C1 (amended).** For every series and every batch of concurrently issued
requests, the transport stub settles the queued responses strictly in the
order the requests were received (`settledIndexes` of the trace is
`0, 1, ..., k-1` where `k = min requests queued-responses`); the
`beforeAnyResponse` hook (if registered) runs exactly once, before the first
response only; the `beforeEachResponse` hook (if registered) runs for request
`i` immediately before response `i` settles — *provided no earlier invocation
of the hook threw*: once an invocation throws, the hook is skipped for every
later response (`_tryBeforeEachResponse`, lines 599-600), which is the
correction to the claim as stated. -/
theorem c1_ordering_and_hooks (m : MockHttp) (cfgs : List Config) :
    settledIndexes (execStub m cfgs).2
        = List.range (min cfgs.length m._responses.length) ∧
    (m._beforeAnyResponse.isSome = true →
      0 < min cfgs.length m._responses.length →
      ∃ tl, (execStub m cfgs).2 = Event.beforeAnyRun :: tl
        ∧ Event.beforeAnyRun ∉ tl) ∧
    (∀ i c, i < min cfgs.length m._responses.length → cfgs[i]? = some c →
      m._beforeEachResponse.isSome = true →
      (m._beforeEachResponse = some false ∨ i = 0) →
      ∃ l1 s l2, (execStub m cfgs).2
        = l1 ++ Event.beforeEachRun i :: Event.settled i s :: l2) ∧
    (m._beforeEachResponse = some true →
      ∀ i, 0 < i → Event.beforeEachRun i ∉ (execStub m cfgs).2) := by
  refine ⟨execStub_settledIndexes m cfgs, ?_, ?_, ?_⟩
  · intro ha hk
    obtain ⟨c0, ctl, rfl⟩ : ∃ c0 ctl, cfgs = c0 :: ctl := by
      cases cfgs with
      | nil => simp at hk
      | cons a l => exact ⟨a, l, rfl⟩
    obtain ⟨k', hk'⟩ :
        ∃ k', min (c0 :: ctl).length m._responses.length = k' + 1 :=
      ⟨min (c0 :: ctl).length m._responses.length - 1, by omega⟩
    unfold execStub
    rw [issueAll_queue_initial, hk', List.range_eq_range', List.range'_succ,
      List.zip_cons_cons]
    refine runChain_head_beforeAny m c0 _ _ ha ?_
    intro p hp
    have h1 := List.mem_range'_1.mp (List.of_mem_zip hp).1
    omega
  · intro i c hik hc he hcase
    unfold execStub
    rcases hcase with hfalse | rfl
    · have hmem : (i, c)
          ∈ (List.range (min cfgs.length m._responses.length)).zip cfgs :=
        mem_zip_of_getElem? i i c (List.getElem?_range hik) hc
      have hst : (issueAll m (initialHttpState m)
          cfgs).1.errorFromBeforeEachResponse = false :=
        (issueAll_errors m cfgs _).2.1
      rw [issueAll_queue_initial]
      exact runChain_each_adjacent m _ hfalse _ hst i c hmem
    · obtain ⟨ctl, rfl⟩ : ∃ ctl, cfgs = c :: ctl := by
        cases cfgs with
        | nil => simp at hc
        | cons a l =>
          simp only [List.getElem?_cons_zero, Option.some.injEq] at hc
          subst hc; exact ⟨l, rfl⟩
      obtain ⟨k', hk'⟩ :
          ∃ k', min (c :: ctl).length m._responses.length = k' + 1 :=
        ⟨min (c :: ctl).length m._responses.length - 1, by omega⟩
      rw [issueAll_queue_initial, hk', List.range_eq_range', List.range'_succ,
        List.zip_cons_cons]
      exact runChain_each_head m 0 c _ _ he
        ((issueAll_errors m (c :: ctl) _).2.1)
  · intro htrue i hi
    unfold execStub
    rw [issueAll_queue_initial]
    rcases Nat.eq_zero_or_pos (min cfgs.length m._responses.length) with hk | hk
    · rw [hk]; simp [runChain]
    · obtain ⟨c0, ctl, rfl⟩ : ∃ c0 ctl, cfgs = c0 :: ctl := by
        cases cfgs with
        | nil => simp at hk
        | cons a l => exact ⟨a, l, rfl⟩
      obtain ⟨k', hk'⟩ :
          ∃ k', min (c0 :: ctl).length m._responses.length = k' + 1 :=
        ⟨min (c0 :: ctl).length m._responses.length - 1, by omega⟩
      rw [hk', List.range_eq_range', List.range'_succ, List.zip_cons_cons]
      simp only [runChain, List.mem_append, not_or]
      constructor
      · rw [chainSegment_events]
        have : i ≠ 0 := by omega
        split <;> split <;> simp_all
      · apply runChain_each_notMem_of_errored
        rw [chainSegment_each, htrue]
        simp

/-- **C1 counterexample.** The claim as stated — "before response `i`
settles, the `beforeEachResponse` hook (if registered) runs for request
`i`" — fails on the series with two queued responses whose
`beforeEachResponse` hook throws: the hook runs for request 0 (and its error
is stored), after which `_tryBeforeEachResponse` skips the hook for request
1, yet response 1 still settles. -/
theorem c1_counterexample :
    (execStub
        { _responses := [.returns (.plain 0), .returns (.plain 1)],
          _beforeEachResponse := some true }
        [10, 11]).2
      = [Event.beforeEachRun 0,
         Event.settled 0 (.fulfilled ⟨200, .data 0⟩ 10),
         Event.settled 1 (.fulfilled ⟨200, .data 1⟩ 11)] ∧
    Event.beforeEachRun 1 ∉
      (execStub
        { _responses := [.returns (.plain 0), .returns (.plain 1)],
          _beforeEachResponse := some true }
        [10, 11]).2 := by
  constructor <;> decide

/-- Witness for `c1_ordering_and_hooks` at a concrete series: two queued
responses, a non-throwing `beforeAnyResponse` hook and a throwing
`beforeEachResponse` hook, two concurrent requests. -/
theorem c1_ordering_and_hooks_witness :
    settledIndexes
        (execStub
          { _responses := [.returns (.plain 0), .returns (.plain 1)],
            _beforeAnyResponse := some false, _beforeEachResponse := some true }
          [20, 21]).2
      = List.range 2 ∧
    (∃ tl, (execStub
          { _responses := [.returns (.plain 0), .returns (.plain 1)],
            _beforeAnyResponse := some false, _beforeEachResponse := some true }
          [20, 21]).2
        = Event.beforeAnyRun :: tl ∧ Event.beforeAnyRun ∉ tl) ∧
    (∃ l1 s l2, (execStub
          { _responses := [.returns (.plain 0), .returns (.plain 1)],
            _beforeAnyResponse := some false, _beforeEachResponse := some true }
          [20, 21]).2
        = l1 ++ Event.beforeEachRun 0 :: Event.settled 0 s :: l2) ∧
    Event.beforeEachRun 1 ∉
      (execStub
        { _responses := [.returns (.plain 0), .returns (.plain 1)],
          _beforeAnyResponse := some false, _beforeEachResponse := some true }
        [20, 21]).2 := by
  have h := c1_ordering_and_hooks
    { _responses := [.returns (.plain 0), .returns (.plain 1)],
      _beforeAnyResponse := some false, _beforeEachResponse := some true }
    [20, 21]
  exact ⟨h.1, h.2.1 (by decide) (by decide),
    h.2.2.1 0 20 (by decide) (by decide) (by decide) (Or.inr rfl),
    h.2.2.2 rfl 1 (by decide)⟩

/-- **C6.** For every queued response descriptor consumed by a request: a
status in `[200, 300)` fulfills the request's promise with the response
(status, body and config), and any other status rejects it with an error
carrying that response (lines 571-578). -/
theorem c6_settle_dispatch (m : MockHttp) (cfgs : List Config) (i : Nat)
    (c : Config) (e : RespEntry) (d : Response)
    (hik : i < min cfgs.length m._responses.length)
    (hc : cfgs[i]? = some c)
    (he : m._responses[i]? = some e)
    (hd : runResponseCallback e = .ok d) :
    (200 ≤ d.status ∧ d.status < 300 →
      Event.settled i (.fulfilled d c) ∈ (execStub m cfgs).2) ∧
    (¬(200 ≤ d.status ∧ d.status < 300) →
      Event.settled i (.rejectedWith d c) ∈ (execStub m cfgs).2) := by
  have hgd : m._responses.getD i .throws = e := by
    rw [List.getD_eq_getElem?_getD, he]; rfl
  have hmem : (i, c)
      ∈ (List.range (min cfgs.length m._responses.length)).zip cfgs :=
    mem_zip_of_getElem? i i c (List.getElem?_range hik) hc
  constructor <;> intro hcond
  · have hs : settleOutcome m i c = .fulfilled d c := by
      unfold settleOutcome; rw [hgd, hd]; exact if_pos hcond
    unfold execStub
    rw [issueAll_queue_initial, ← hs]
    exact runChain_settled_mem m _ _ i c hmem
  · have hs : settleOutcome m i c = .rejectedWith d c := by
      unfold settleOutcome; rw [hgd, hd]; exact if_neg hcond
    unfold execStub
    rw [issueAll_queue_initial, ← hs]
    exact runChain_settled_mem m _ _ i c hmem

/-- Witness for `c6_settle_dispatch`: a 200 response fulfills and a
problem-500.1 response rejects, each carrying its descriptor and config. -/
theorem c6_settle_dispatch_witness :
    Event.settled 0 (.fulfilled ⟨200, .data 5⟩ 30)
      ∈ (execStub
          { _responses := [.returns (.plain 5),
              .returns (.problem (.num (mkRat 5001 10)))] }
          [30, 31]).2 ∧
    Event.settled 1 (.rejectedWith
        ⟨500, .codeMessage (mkRat 5001 10) "There was a problem."⟩ 31)
      ∈ (execStub
          { _responses := [.returns (.plain 5),
              .returns (.problem (.num (mkRat 5001 10)))] }
          [30, 31]).2 := by
  constructor
  · exact (c6_settle_dispatch
      { _responses := [.returns (.plain 5),
          .returns (.problem (.num (mkRat 5001 10)))] }
      [30, 31] 0 30 (.returns (.plain 5)) ⟨200, .data 5⟩
      (by decide) (by decide) (by decide) (by decide)).1 (by decide)
  · exact (c6_settle_dispatch
      { _responses := [.returns (.plain 5),
          .returns (.problem (.num (mkRat 5001 10)))] }
      [30, 31] 1 31 (.returns (.problem (.num (mkRat 5001 10))))
      ⟨500, .codeMessage (mkRat 5001 10) "There was a problem."⟩
      (by decide) (by decide) (by decide) (by decide)).2 (by decide)

/-- **C2 (amended).** For every executed series that reaches the verify step
with no stored hook or response-callback error (previous series fulfilled,
lock free, mount/request phase clean, the navigation guard, pre-response
hooks, response callbacks and completion callback all error-free): if the
number of requests sent exceeds the number of responses queued, the
`afterResponses` promise rejects with the `'request without response'`
error; if the responses exceed the requests, it rejects with the
`'response without request'` error; if the counts are equal, it fulfills.
(The correction: when another pipeline error is also stored — e.g. a hook
threw — `_checkStateAfterWait` re-raises that error instead of the
cardinality error, so the claim's unconditional mismatch clause fails;
see the counterexample.) -/
theorem c2_cardinality (m : MockHttp) (b : RunBehavior) (g : Global)
    (hprev : (m._previousPromise.map PrevOutcome.rejected).getD false = false)
    (hflag : g.inProgress = false)
    (hmain : mainPhaseError m b = none)
    (hnav : ¬(m._beforeEachNavGuard = some true ∧ b.navEvents ≠ 0))
    (hany : m._beforeAnyResponse ≠ some true)
    (heach : m._beforeEachResponse ≠ some true)
    (hresp : ∀ e ∈ m._responses, e ≠ RespEntry.throws)
    (hcb : b.callbackThrows = false) :
    (m._responses.length < (issuedRequests m b).length →
      (runSeries m b g).outcome = .error (.verifyFailed
        "request without response: no response specified for request")) ∧
    ((issuedRequests m b).length < m._responses.length →
      (runSeries m b g).outcome = .error (.verifyFailed
        "response without request: not all responses were requested")) ∧
    ((issuedRequests m b).length = m._responses.length →
      (runSeries m b g).outcome = .ok ()) := by
  have hA : (execStub m
      (issuedRequests m b)).1.errorFromBeforeAnyResponse = false := by
    cases h0 : (execStub m (issuedRequests m b)).1.errorFromBeforeAnyResponse
    · rfl
    · exact absurd ((execStub_any _ _).mp h0).1 hany
  have hE : (execStub m
      (issuedRequests m b)).1.errorFromBeforeEachResponse = false := by
    cases h0 : (execStub m (issuedRequests m b)).1.errorFromBeforeEachResponse
    · rfl
    · exact absurd ((execStub_each _ _).mp h0).1 heach
  have hR : (execStub m (issuedRequests m b)).1.errorFromResponse = false := by
    cases h0 : (execStub m (issuedRequests m b)).1.errorFromResponse
    · rfl
    · obtain ⟨i, hik, hthrow⟩ := (execStub_resp _ _).mp h0
      have hi : i < m._responses.length := lt_of_lt_of_le hik (min_le_right _ _)
      rw [List.getD_eq_getElem?_getD, List.getElem?_eq_getElem hi] at hthrow
      exact absurd (by simpa using hthrow) (hresp _ (List.getElem_mem hi))
  rw [runSeries_acquired m b g hprev hflag]
  simp only [hmain]
  rw [decide_eq_false hnav]
  refine ⟨?_, ?_, ?_⟩ <;> intro hlen
  · have hreq : (execStub m
        (issuedRequests m b)).1.requestWithoutResponse = true :=
      (execStub_requestWithoutResponse _ _).mpr hlen
    simp [checkStateAfterWait, hA, hE, hR, hreq]
  · have hreq : (execStub m
        (issuedRequests m b)).1.requestWithoutResponse = false := by
      cases h0 : (execStub m (issuedRequests m b)).1.requestWithoutResponse
      · rfl
      · have := (execStub_requestWithoutResponse _ _).mp h0
        omega
    have hrwr : (execStub m
        (issuedRequests m b)).1.responseWithoutRequest = true :=
      (execStub_responseWithoutRequest _ _).mpr ⟨by omega, hlen⟩
    simp [checkStateAfterWait, hA, hE, hR, hreq, hrwr]
  · have hreq : (execStub m
        (issuedRequests m b)).1.requestWithoutResponse = false := by
      cases h0 : (execStub m (issuedRequests m b)).1.requestWithoutResponse
      · rfl
      · have := (execStub_requestWithoutResponse _ _).mp h0
        omega
    have hrwr : (execStub m
        (issuedRequests m b)).1.responseWithoutRequest = false := by
      cases h0 : (execStub m (issuedRequests m b)).1.responseWithoutRequest
      · rfl
      · have := (execStub_responseWithoutRequest _ _).mp h0
        omega
    simp [checkStateAfterWait, hA, hE, hR, hreq, hrwr, hcb]

/-- **C2 counterexample.** A series whose request count (1) differs from its
queued-response count (2) but whose `beforeAnyResponse` hook throws rejects
with the hook's labeled error, not with a cardinality-mismatch error — so the
claim's unconditional mismatch clause is false as stated. -/
theorem c2_counterexample :
    (runSeries
        { _request := some ⟨[7], false⟩,
          _responses := [.returns (.plain 0), .returns (.plain 1)],
          _beforeAnyResponse := some true }
        {} ⟨false, 5⟩).outcome
      = .error (.verifyFailed "beforeAnyResponse() callback threw an error") ∧
    (issuedRequests
        { _request := some ⟨[7], false⟩,
          _responses := [.returns (.plain 0), .returns (.plain 1)],
          _beforeAnyResponse := some true }
        {}).length
      ≠ (MockHttp._responses
          { _request := some ⟨[7], false⟩,
            _responses := [.returns (.plain 0), .returns (.plain 1)],
            _beforeAnyResponse := some true }).length := by
  constructor
  · rfl
  · decide

/-- Witness for `c2_cardinality`: a clean series sending two requests against
two queued responses fulfills; the same series against one queued response
rejects with the `'request without response'` error. -/
theorem c2_cardinality_witness :
    (runSeries
        { _request := some ⟨[7, 8], false⟩,
          _responses := [.returns (.plain 0), .returns (.plain 1)] }
        {} ⟨false, 5⟩).outcome = .ok () ∧
    (runSeries
        { _request := some ⟨[7, 8], false⟩,
          _responses := [.returns (.plain 0)] }
        {} ⟨false, 5⟩).outcome
      = .error (.verifyFailed
          "request without response: no response specified for request") := by
  constructor
  · exact (c2_cardinality
      { _request := some ⟨[7, 8], false⟩,
        _responses := [.returns (.plain 0), .returns (.plain 1)] }
      {} ⟨false, 5⟩ rfl rfl rfl (by decide) (by decide) (by decide)
      (by decide) rfl).2.2 (by decide)
  · exact (c2_cardinality
      { _request := some ⟨[7, 8], false⟩,
        _responses := [.returns (.plain 0)] }
      {} ⟨false, 5⟩ rfl rfl rfl (by decide) (by decide) (by decide)
      (by decide) rfl).1 (by decide)

/-- **C3.** The global in-progress flag guarantees mutual exclusion: a series
whose own setup runs (previous series fulfilled) while another series holds
the flag rejects with `'another series is in progress'`; after any series
completes — fulfilled or rejected — the flag is clear
(`_cleanUpAfterResponses` runs in a `finally`), so a series started
afterwards never fails with the concurrency-violation error. -/
theorem c3_mutual_exclusion (m : MockHttp) (b : RunBehavior) (g : Global)
    (n : MockHttp) (d : RunBehavior) :
    ((m._previousPromise.map PrevOutcome.rejected).getD false = false →
      g.inProgress = true →
      (runSeries m b g).outcome = .error .anotherSeriesInProgress) ∧
    (runSeries m b g).global.inProgress = false ∧
    (runSeries n d (runSeries m b g).global).outcome
      ≠ .error .anotherSeriesInProgress := by
  have hglb : (runSeries m b g).global.inProgress = false := by
    unfold runSeries
    split
    · rfl
    · split <;> rfl
  refine ⟨?_, hglb, runSeries_no_lock_error n d _ hglb⟩
  intro hprev hin
  unfold runSeries
  rw [hprev, hin]
  simp

/-- Witness for `c3_mutual_exclusion`: a series started while the flag is
held rejects with the concurrency error, clears the flag, and a subsequent
series does not hit the concurrency error. -/
theorem c3_mutual_exclusion_witness :
    (runSeries { _location := some 1 } {} ⟨true, 0⟩).outcome
      = .error .anotherSeriesInProgress ∧
    (runSeries { _location := some 1 } {} ⟨true, 0⟩).global.inProgress
      = false ∧
    (runSeries { _location := some 2 } {}
        (runSeries { _location := some 1 } {} ⟨true, 0⟩).global).outcome
      ≠ .error .anotherSeriesInProgress := by
  have h := c3_mutual_exclusion { _location := some 1 } {} ⟨true, 0⟩
    { _location := some 2 } {}
  exact ⟨h.1 rfl rfl, h.2.1, h.2.2⟩

/-- **C5.** For every series that began executing (its previous series
fulfilled and the lock was free, so it acquired the flag and substituted the
transport), the transport `Vue.prototype.$http` is restored to its identical
pre-series value after the series completes, whether the promise fulfilled
or rejected (`_restoreHttp` runs in a `finally` before the verify step). -/
theorem c5_http_restoration (m : MockHttp) (b : RunBehavior) (g : Global)
    (hprev : (m._previousPromise.map PrevOutcome.rejected).getD false = false)
    (hflag : g.inProgress = false) :
    (runSeries m b g).global.http = g.http := by
  rw [runSeries_acquired m b g hprev hflag]

/-- Witness for `c5_http_restoration`: a failing series (mount throws)
restores the transport identity `42`. -/
theorem c5_http_restoration_witness :
    (runSeries { _mount := some true } {} ⟨false, 42⟩).global.http = 42 :=
  c5_http_restoration { _mount := some true } {} ⟨false, 42⟩ rfl rfl

/-- **C7.** For every cleanly started series execution (previous series
fulfilled, lock free, mount/request phase error-free) in which the
`beforeEachNav` guard, the `beforeAnyResponse` hook, the `beforeEachResponse`
hook, or a queued response callback throws: the error is caught and stored
rather than propagated through the response promise chain — every chained
response still settles, in order (`settledIndexes` of the trace is complete) —
and the `afterResponses` promise rejects at the verify step
(`_checkStateAfterWait`) with a single labeled error naming the failed hook
category, in the source's priority order. -/
theorem c7_error_containment (m : MockHttp) (b : RunBehavior) (g : Global)
    (hprev : (m._previousPromise.map PrevOutcome.rejected).getD false = false)
    (hflag : g.inProgress = false)
    (hmain : mainPhaseError m b = none)
    (htrig : (m._beforeEachNavGuard = some true ∧ b.navEvents ≠ 0)
      ∨ (m._beforeAnyResponse = some true
          ∧ 0 < min (issuedRequests m b).length m._responses.length)
      ∨ (m._beforeEachResponse = some true
          ∧ 0 < min (issuedRequests m b).length m._responses.length)
      ∨ (∃ i, i < min (issuedRequests m b).length m._responses.length
          ∧ m._responses.getD i .throws = .throws)) :
    (∃ msg, (runSeries m b g).outcome = .error (.verifyFailed msg)) ∧
    ((m._beforeEachNavGuard = some true ∧ b.navEvents ≠ 0) →
      (runSeries m b g).outcome
        = .error (.verifyFailed "beforeEachNav() callback threw an error")) ∧
    (¬(m._beforeEachNavGuard = some true ∧ b.navEvents ≠ 0) →
      (m._beforeAnyResponse = some true
        ∧ 0 < min (issuedRequests m b).length m._responses.length) →
      (runSeries m b g).outcome
        = .error (.verifyFailed
            "beforeAnyResponse() callback threw an error")) ∧
    (¬(m._beforeEachNavGuard = some true ∧ b.navEvents ≠ 0) →
      m._beforeAnyResponse ≠ some true →
      (m._beforeEachResponse = some true
        ∧ 0 < min (issuedRequests m b).length m._responses.length) →
      (runSeries m b g).outcome
        = .error (.verifyFailed
            "beforeEachResponse() callback threw an error")) ∧
    (¬(m._beforeEachNavGuard = some true ∧ b.navEvents ≠ 0) →
      m._beforeAnyResponse ≠ some true →
      m._beforeEachResponse ≠ some true →
      (∃ i, i < min (issuedRequests m b).length m._responses.length
        ∧ m._responses.getD i .throws = .throws) →
      (runSeries m b g).outcome
        = .error (.verifyFailed "a response callback threw an error")) ∧
    settledIndexes (runSeries m b g).events
      = List.range (min (issuedRequests m b).length m._responses.length) := by
  have keyNav : (m._beforeEachNavGuard = some true ∧ b.navEvents ≠ 0) →
      (runSeries m b g).outcome
        = .error (.verifyFailed "beforeEachNav() callback threw an error") := by
    intro hn
    rw [runSeries_acquired m b g hprev hflag]
    simp only [hmain]
    rw [decide_eq_true hn]
    simp [checkStateAfterWait]
  have keyAny : ¬(m._beforeEachNavGuard = some true ∧ b.navEvents ≠ 0) →
      (m._beforeAnyResponse = some true
        ∧ 0 < min (issuedRequests m b).length m._responses.length) →
      (runSeries m b g).outcome
        = .error (.verifyFailed
            "beforeAnyResponse() callback threw an error") := by
    intro hn ha
    rw [runSeries_acquired m b g hprev hflag]
    simp only [hmain]
    rw [decide_eq_false hn]
    have hA : (execStub m
        (issuedRequests m b)).1.errorFromBeforeAnyResponse = true :=
      (execStub_any _ _).mpr ha
    simp [checkStateAfterWait, hA]
  have keyEach : ¬(m._beforeEachNavGuard = some true ∧ b.navEvents ≠ 0) →
      m._beforeAnyResponse ≠ some true →
      (m._beforeEachResponse = some true
        ∧ 0 < min (issuedRequests m b).length m._responses.length) →
      (runSeries m b g).outcome
        = .error (.verifyFailed
            "beforeEachResponse() callback threw an error") := by
    intro hn hany he
    rw [runSeries_acquired m b g hprev hflag]
    simp only [hmain]
    rw [decide_eq_false hn]
    have hA : (execStub m
        (issuedRequests m b)).1.errorFromBeforeAnyResponse = false := by
      cases h0 : (execStub m (issuedRequests m b)).1.errorFromBeforeAnyResponse
      · rfl
      · exact absurd ((execStub_any _ _).mp h0).1 hany
    have hE : (execStub m
        (issuedRequests m b)).1.errorFromBeforeEachResponse = true :=
      (execStub_each _ _).mpr he
    simp [checkStateAfterWait, hA, hE]
  have keyResp : ¬(m._beforeEachNavGuard = some true ∧ b.navEvents ≠ 0) →
      m._beforeAnyResponse ≠ some true →
      m._beforeEachResponse ≠ some true →
      (∃ i, i < min (issuedRequests m b).length m._responses.length
        ∧ m._responses.getD i .throws = .throws) →
      (runSeries m b g).outcome
        = .error (.verifyFailed "a response callback threw an error") := by
    intro hn hany heach hr
    rw [runSeries_acquired m b g hprev hflag]
    simp only [hmain]
    rw [decide_eq_false hn]
    have hA : (execStub m
        (issuedRequests m b)).1.errorFromBeforeAnyResponse = false := by
      cases h0 : (execStub m (issuedRequests m b)).1.errorFromBeforeAnyResponse
      · rfl
      · exact absurd ((execStub_any _ _).mp h0).1 hany
    have hE : (execStub m
        (issuedRequests m b)).1.errorFromBeforeEachResponse = false := by
      cases h0 : (execStub m (issuedRequests m b)).1.errorFromBeforeEachResponse
      · rfl
      · exact absurd ((execStub_each _ _).mp h0).1 heach
    have hR : (execStub m (issuedRequests m b)).1.errorFromResponse = true :=
      (execStub_resp _ _).mpr hr
    simp [checkStateAfterWait, hA, hE, hR]
  have keyEvents : settledIndexes (runSeries m b g).events
      = List.range (min (issuedRequests m b).length m._responses.length) := by
    rw [runSeries_acquired m b g hprev hflag]
    exact execStub_settledIndexes m (issuedRequests m b)
  refine ⟨?_, keyNav, keyAny, keyEach, keyResp, keyEvents⟩
  by_cases hn : (m._beforeEachNavGuard = some true ∧ b.navEvents ≠ 0)
  · exact ⟨_, keyNav hn⟩
  by_cases hany : m._beforeAnyResponse = some true
  · rcases htrig with hn' | ha | he | hr
    · exact ⟨_, keyNav hn'⟩
    · exact ⟨_, keyAny hn ha⟩
    · exact ⟨_, keyAny hn ⟨hany, he.2⟩⟩
    · obtain ⟨i, hik, _⟩ := hr
      exact ⟨_, keyAny hn ⟨hany, by omega⟩⟩
  by_cases heach : m._beforeEachResponse = some true
  · rcases htrig with hn' | ha | he | hr
    · exact ⟨_, keyNav hn'⟩
    · exact absurd ha.1 hany
    · exact ⟨_, keyEach hn hany he⟩
    · obtain ⟨i, hik, _⟩ := hr
      exact ⟨_, keyEach hn hany ⟨heach, by omega⟩⟩
  rcases htrig with hn' | ha | he | hr
  · exact ⟨_, keyNav hn'⟩
  · exact absurd ha.1 hany
  · exact absurd he.1 heach
  · exact ⟨_, keyResp hn hany heach hr⟩

/-- Witness for `c7_error_containment`: a series whose `beforeAnyResponse`
hook throws (one request, one queued response) rejects with the
`beforeAnyResponse` label while its response still settles. -/
theorem c7_error_containment_witness :
    (runSeries
        { _request := some ⟨[3], false⟩,
          _responses := [.returns (.plain 0)],
          _beforeAnyResponse := some true }
        {} ⟨false, 0⟩).outcome
      = .error (.verifyFailed "beforeAnyResponse() callback threw an error") ∧
    settledIndexes
        (runSeries
          { _request := some ⟨[3], false⟩,
            _responses := [.returns (.plain 0)],
            _beforeAnyResponse := some true }
          {} ⟨false, 0⟩).events
      = List.range 1 := by
  have h := c7_error_containment
    { _request := some ⟨[3], false⟩,
      _responses := [.returns (.plain 0)],
      _beforeAnyResponse := some true }
    {} ⟨false, 0⟩ rfl rfl rfl (Or.inr (Or.inl ⟨rfl, by decide⟩))
  exact ⟨h.2.2.1 (by decide) ⟨rfl, by decide⟩, h.2.2.2.2.2⟩
